import Mathlib

/-!
# Verification of `anthropic_api_pipe.py` (Topify-GEOAGENT)

A shallow embedding, in Lean 4, of the parts of `anthropic_api_pipe.py`
that the specification's checkable claims are about:

* the streaming SSE translator `Pipe._stream_with_ui` (lines 521-672),
  which consumes Anthropic server-sent events and produces
  OpenAI-compatible chat-completion chunks;
* the retry wrapper `Pipe._send_request` (lines 852-903);
* the model-name / thinking-mode resolution and `max_tokens` clamping in
  `Pipe.pipe` (lines 326-407);
* the image validation `Pipe.validate_total_image_size` (lines 300-324).

JSON serialization of the emitted chunks (the literal
`data: {...}\n\n` strings, whose `id`/`created` fields depend on wall
time) is abstracted: each emitted item is represented as a structured
`Chunk` value that records exactly the fields the code puts into the
chunk's `choices[0].delta` and `finish_reason`, plus a `done` value that
stands for the final `data: [DONE]\n\n` sentinel string.
-/

namespace AnthropicPipe

/-- A citation object carried by a `citations_delta` event.
`document_index` and `document_title` may be absent; the code reads them
with `citation.get("document_index", 0)` and
`citation.get("document_title", "")`. -/
structure Citation where
  documentIndex : Option Nat
  documentTitle : Option String
  deriving DecidableEq, Repr

/-- The `content_block` object of a `content_block_start` event: either a
`tool_use` block (whose `id` and `name` may be absent: the code reads
them with `content_block.get("id", f"call_{tool_call_index}")` and
`content_block.get("name", "")`), or a block of any other type. -/
inductive BlockStart where
  | toolUse (id? : Option String) (name? : Option String)
  | otherBlock (blockType : String)
  deriving DecidableEq, Repr

/-- The `delta` object of a `content_block_delta` event, one constructor
per `delta.get("type")` the code distinguishes. -/
inductive DeltaEvent where
  | textDelta (text : String)
  | inputJsonDelta (partialJson : String)
  | thinkingDelta (thinking : String)
  | citationsDelta (citation : Option Citation)
  | otherDelta (deltaType : String)
  deriving DecidableEq, Repr

/-- A parsed upstream SSE event, one constructor per `data["type"]` the
code distinguishes (`content_block_start`, `content_block_delta`,
`content_block_stop`, `message_stop`); all other event types fall
through the `if`/`elif` chain with no effect. -/
inductive SSEEvent where
  | contentBlockStart (block : BlockStart)
  | contentBlockDelta (delta : DeltaEvent)
  | contentBlockStop
  | messageStop
  | otherEvent (eventType : String)
  deriving DecidableEq, Repr

/-- One raw line of the upstream byte stream, as the loop
`async for line in response.content` sees it:
* `notData`: the line does not start with `b"data: "` and is skipped by
  the outer `if`;
* `malformed`: the line starts with `b"data: "` but its payload is not
  valid JSON, so `json.loads` raises `json.JSONDecodeError`, which is
  logged and the line skipped (`continue`);
* `event`: the payload parses to a JSON object with a `type` field. -/
inductive SSELine where
  | notData (raw : String)
  | malformed (raw : String)
  | event (e : SSEEvent)
  deriving DecidableEq, Repr

/-- The translator's record of the tool_use block currently being built
(the Python dict `current_tool_use` with keys `id`, `name`, `index`). -/
structure ToolUse where
  id : String
  name : String
  index : Nat
  deriving DecidableEq, Repr

/-- The translator's mutable locals: `current_tool_use`,
`tool_use_input_json`, `tool_call_index`, `has_tool_calls`
(lines 526-530). -/
structure StreamState where
  currentToolUse : Option ToolUse
  toolUseInputJson : String
  toolCallIndex : Nat
  hasToolCalls : Bool
  deriving DecidableEq, Repr

/-- The locals' initial values (lines 526-530). -/
def initState : StreamState :=
  { currentToolUse := none, toolUseInputJson := "", toolCallIndex := 0,
    hasToolCalls := false }

/-- One emitted item of the output sequence.  Each constructor records
the semantically relevant payload of one yielded chunk:
* `toolCallInit i id name args`: the initial tool-call chunk yielded on
  a `tool_use` `content_block_start` — `delta.tool_calls` holds one
  entry with `index = i`, the block's `id`, `type = "function"` and
  `function = {name, arguments}` where the code passes `arguments = ""`;
* `toolCallArgs i args`: an incremental argument chunk yielded on an
  `input_json_delta` — `delta.tool_calls` holds one entry with
  `index = i` and `function.arguments = args`;
* `content t`: a chunk with `delta.content = t`;
* `reasoning t`: a chunk with `delta.reasoning_content = t`;
* `finish r`: the chunk with `finish_reason = r`;
* `done`: the terminal `data: [DONE]\n\n` sentinel string. -/
inductive Chunk where
  | toolCallInit (index : Nat) (id : String) (name : String) (arguments : String)
  | toolCallArgs (index : Nat) (arguments : String)
  | content (text : String)
  | reasoning (text : String)
  | finish (reason : String)
  | done
  deriving DecidableEq, Repr

/-- The result of processing one line: the updated locals, the chunks
yielded for that line (in order), and whether the loop `break`s
(which only `message_stop` does). -/
structure StepResult where
  state : StreamState
  out : List Chunk
  stop : Bool
  deriving DecidableEq, Repr

/-- The loop body of `_stream_with_ui` (lines 549-661), for one line of
the upstream stream. -/
def processLine (s : StreamState) : SSELine → StepResult
  | .notData _ => ⟨s, [], false⟩
  | .malformed _ => ⟨s, [], false⟩
  | .event e =>
    match e with
    | .contentBlockStart block =>
      match block with
      | .toolUse id? name? =>
        let t : ToolUse :=
          { id := id?.getD ("call_" ++ toString s.toolCallIndex),
            name := name?.getD "",
            index := s.toolCallIndex }
        ⟨{ s with hasToolCalls := true,
                  currentToolUse := some t,
                  toolUseInputJson := "" },
         [.toolCallInit t.index t.id t.name ""], false⟩
      | .otherBlock _ => ⟨s, [], false⟩
    | .contentBlockDelta d =>
      match d with
      | .textDelta text =>
        ⟨s, if text ≠ "" then [.content text] else [], false⟩
      | .inputJsonDelta partialJson =>
        match s.currentToolUse with
        | some t =>
          if partialJson ≠ "" then
            ⟨{ s with toolUseInputJson := s.toolUseInputJson ++ partialJson },
             [.toolCallArgs t.index partialJson], false⟩
          else ⟨s, [], false⟩
        | none => ⟨s, [], false⟩
      | .thinkingDelta thinking =>
        ⟨s, if thinking ≠ "" then [.reasoning thinking] else [], false⟩
      | .citationsDelta citation? =>
        match citation? with
        | some c =>
          let docIndex := c.documentIndex.getD 0
          let docTitle := c.documentTitle.getD ""
          let citeText :=
            if docTitle ≠ "" then
              " [" ++ toString docIndex ++ ": " ++ docTitle ++ "]"
            else
              " [" ++ toString docIndex ++ "]"
          ⟨s, [.content citeText], false⟩
        | none => ⟨s, [], false⟩
      | .otherDelta _ => ⟨s, [], false⟩
    | .contentBlockStop =>
      match s.currentToolUse with
      | some _ =>
        ⟨{ s with toolCallIndex := s.toolCallIndex + 1,
                  currentToolUse := none,
                  toolUseInputJson := "" }, [], false⟩
      | none => ⟨s, [], false⟩
    | .messageStop =>
      let finishReason := if s.hasToolCalls then "tool_calls" else "stop"
      ⟨s, [.finish finishReason, .done], true⟩
    | .otherEvent _ => ⟨s, [], false⟩

/-- The whole line loop: chunks emitted while folding `processLine` over
the upstream lines, stopping at the first line whose step `break`s. -/
def runStream (s : StreamState) : List SSELine → List Chunk
  | [] => []
  | l :: ls =>
    let r := processLine s l
    r.out ++ (if r.stop then [] else runStream r.state ls)

/-- Whether a line is a parsed `message_stop` event (the only line kind
on which the loop `break`s). -/
def SSELine.isMessageStop : SSELine → Bool
  | .event .messageStop => true
  | _ => false

/-- Whether a line is a parsed `content_block_start` event whose block
has type `tool_use`. -/
def SSELine.isToolStart : SSELine → Bool
  | .event (.contentBlockStart (.toolUse _ _)) => true
  | _ => false

/-- Whether some line of the list is a `message_stop` event, i.e. the
stream reaches its terminal event. -/
def containsStop (ls : List SSELine) : Bool :=
  ls.any SSELine.isMessageStop

/-- Whether a `tool_use` block starts strictly before the first
`message_stop` event, i.e. during the processed part of the stream. -/
def toolStartBeforeStop : List SSELine → Bool
  | [] => false
  | l :: ls =>
    if l.isToolStart then true
    else if l.isMessageStop then false
    else toolStartBeforeStop ls

/-- Whether a chunk is terminal: the finish chunk or the `[DONE]`
sentinel. -/
def Chunk.isTerminal : Chunk → Bool
  | .finish _ => true
  | .done => true
  | _ => false

/-- Whether a chunk is an initial tool-call chunk (the one carrying the
tool's name). -/
def Chunk.isToolCallInit : Chunk → Bool
  | .toolCallInit .. => true
  | _ => false

/-- Whether a chunk is an incremental tool-argument chunk. -/
def Chunk.isToolCallArgs : Chunk → Bool
  | .toolCallArgs .. => true
  | _ => false

theorem isMessageStop_eq {l : SSELine} (h : l.isMessageStop = true) :
    l = .event .messageStop := by
  rcases l with _ | _ | e
  · simp [SSELine.isMessageStop] at h
  · simp [SSELine.isMessageStop] at h
  · cases e <;> simp_all [SSELine.isMessageStop]

/-- Processing any line other than `message_stop` never breaks the loop,
turns `has_tool_calls` on exactly when the line starts a `tool_use`
block, and yields no finish chunk and no `[DONE]` sentinel. -/
theorem processLine_nostop (s : StreamState) (l : SSELine)
    (h : l.isMessageStop = false) :
    (processLine s l).stop = false ∧
    (processLine s l).state.hasToolCalls = (s.hasToolCalls || l.isToolStart) ∧
    ∀ c ∈ (processLine s l).out, c.isTerminal = false := by
  rcases l with _ | _ | e
  · simp [processLine, SSELine.isToolStart]
  · simp [processLine, SSELine.isToolStart]
  · rcases e with b | d | _ | _ | t
    · rcases b with ⟨id?, name?⟩ | bt
      · simp [processLine, SSELine.isToolStart, Chunk.isTerminal]
      · simp [processLine, SSELine.isToolStart]
    · rcases d with t | pj | t | c | t
      · by_cases ht : t = "" <;>
          simp [processLine, ht, SSELine.isToolStart, Chunk.isTerminal]
      · rcases hcu : s.currentToolUse with _ | tu
        · simp [processLine, hcu, SSELine.isToolStart]
        · by_cases hpj : pj = "" <;>
            simp [processLine, hcu, hpj, SSELine.isToolStart, Chunk.isTerminal]
      · by_cases ht : t = "" <;>
          simp [processLine, ht, SSELine.isToolStart, Chunk.isTerminal]
      · rcases c with _ | c
        · simp [processLine, SSELine.isToolStart]
        · simp [processLine, SSELine.isToolStart, Chunk.isTerminal]
      · simp [processLine, SSELine.isToolStart]
    · rcases hcu : s.currentToolUse with _ | tu <;>
        simp [processLine, hcu, SSELine.isToolStart]
    · simp [SSELine.isMessageStop] at h
    · simp [processLine, SSELine.isToolStart]

theorem toolStartBeforeStop_cons {l : SSELine} (h : l.isMessageStop = false)
    (ls : List SSELine) :
    toolStartBeforeStop (l :: ls) = (l.isToolStart || toolStartBeforeStop ls) := by
  by_cases ht : l.isToolStart = true <;> simp [toolStartBeforeStop, ht, h]

theorem runStream_cons (s : StreamState) (l : SSELine) (ls : List SSELine) :
    runStream s (l :: ls) =
      (processLine s l).out ++
        (if (processLine s l).stop then [] else runStream (processLine s l).state ls) := by
  simp [runStream]

/-- Whenever the upstream line list reaches a `message_stop` event, the
emitted chunk sequence ends with exactly one finish chunk followed by
the `[DONE]` sentinel, the finish chunk's reason is `"tool_calls"` iff
`has_tool_calls` was already set or a `tool_use` block starts before the
first `message_stop`, and no earlier chunk is terminal. -/
theorem runStream_finish (ls : List SSELine) :
    ∀ s : StreamState, containsStop ls = true →
    ∃ pre : List Chunk,
      runStream s ls =
        pre ++ [Chunk.finish
          (if s.hasToolCalls || toolStartBeforeStop ls then "tool_calls" else "stop"),
          Chunk.done] ∧
      ∀ c ∈ pre, c.isTerminal = false := by
  induction ls with
  | nil => intro s h; simp [containsStop] at h
  | cons l ls ih =>
    intro s h
    by_cases hstop : l.isMessageStop = true
    · rcases isMessageStop_eq hstop with rfl
      refine ⟨[], ?_, by simp⟩
      simp [runStream_cons, processLine, toolStartBeforeStop,
        SSELine.isToolStart, SSELine.isMessageStop]
    · have hstop' : l.isMessageStop = false := by
        revert hstop; cases l.isMessageStop <;> simp
      obtain ⟨hns, hhtc, hterm⟩ := processLine_nostop s l hstop'
      have hcs : containsStop ls = true := by
        simpa [containsStop, hstop'] using h
      obtain ⟨pre, heq, hpre⟩ := ih (processLine s l).state hcs
      refine ⟨(processLine s l).out ++ pre, ?_, ?_⟩
      · rw [runStream_cons, hns, if_neg (by simp), heq,
          toolStartBeforeStop_cons hstop', hhtc, List.append_assoc,
          Bool.or_assoc]
      · intro c hc
        rcases List.mem_append.mp hc with hc | hc
        · exact hterm c hc
        · exact hpre c hc

/-- C1: for every upstream line sequence that reaches a `message_stop`
event, the translator's output ends with a finish chunk (followed only
by the `[DONE]` sentinel) whose `finish_reason` is `"tool_calls"` if
some `tool_use` content block started during the processed stream, and
`"stop"` otherwise; no chunk before it is a finish chunk. -/
theorem finish_reason_tool_calls_iff (ls : List SSELine)
    (h : containsStop ls = true) :
    ∃ pre : List Chunk,
      runStream initState ls =
        pre ++ [Chunk.finish
          (if toolStartBeforeStop ls then "tool_calls" else "stop"),
          Chunk.done] ∧
      ∀ c ∈ pre, c.isTerminal = false := by
  simpa [initState] using runStream_finish ls initState h

theorem finish_reason_tool_calls_iff_witness :
    (containsStop
        [SSELine.event (.contentBlockStart (.toolUse (some "toolu_1") (some "get_weather"))),
         SSELine.event .messageStop] = true ∧
      ∃ pre : List Chunk,
        runStream initState
            [SSELine.event (.contentBlockStart (.toolUse (some "toolu_1") (some "get_weather"))),
             SSELine.event .messageStop] =
          pre ++ [Chunk.finish
            (if toolStartBeforeStop
                [SSELine.event (.contentBlockStart (.toolUse (some "toolu_1") (some "get_weather"))),
                 SSELine.event .messageStop] then "tool_calls" else "stop"),
            Chunk.done] ∧
        ∀ c ∈ pre, c.isTerminal = false) ∧
    (containsStop [SSELine.event (.contentBlockDelta (.textDelta "hi")),
        SSELine.event .messageStop] = true ∧
      ∃ pre : List Chunk,
        runStream initState
            [SSELine.event (.contentBlockDelta (.textDelta "hi")),
             SSELine.event .messageStop] =
          pre ++ [Chunk.finish
            (if toolStartBeforeStop [SSELine.event (.contentBlockDelta (.textDelta "hi")),
                SSELine.event .messageStop] then "tool_calls" else "stop"),
            Chunk.done] ∧
        ∀ c ∈ pre, c.isTerminal = false) :=
  ⟨⟨by decide, finish_reason_tool_calls_iff _ (by decide)⟩,
   ⟨by decide, finish_reason_tool_calls_iff _ (by decide)⟩⟩

/-- C2: for every upstream line sequence that reaches a `message_stop`
event, the translator emits the `[DONE]` sentinel exactly once, and it
is the final emitted item. -/
theorem done_sentinel_unique_and_final (ls : List SSELine)
    (h : containsStop ls = true) :
    (runStream initState ls).count Chunk.done = 1 ∧
    (runStream initState ls).getLast? = some Chunk.done := by
  obtain ⟨pre, heq, hpre⟩ := runStream_finish ls initState h
  have heq2 : runStream initState ls =
      (pre ++ [Chunk.finish
        (if initState.hasToolCalls || toolStartBeforeStop ls
         then "tool_calls" else "stop")]) ++ [Chunk.done] := by
    rw [heq]; simp
  constructor
  · rw [heq2, List.count_append, List.count_append]
    have h0 : pre.count Chunk.done = 0 := by
      rw [List.count_eq_zero]
      intro hmem
      have := hpre _ hmem
      simp [Chunk.isTerminal] at this
    simp [h0, List.count_cons]
  · rw [heq2, List.getLast?_concat]

/-- Processing any line that is neither `message_stop` nor a `tool_use`
`content_block_start`, from a state with no active tool accumulator,
leaves the state unchanged and yields no tool-call, argument, finish or
sentinel chunk. -/
theorem processLine_quiet (s : StreamState) (l : SSELine)
    (hcu : s.currentToolUse = none)
    (h1 : l.isMessageStop = false) (h2 : l.isToolStart = false) :
    (processLine s l).state = s ∧
    (processLine s l).stop = false ∧
    ∀ c ∈ (processLine s l).out,
      c.isToolCallInit = false ∧ c.isToolCallArgs = false ∧ c.isTerminal = false := by
  rcases l with _ | _ | e
  · simp [processLine]
  · simp [processLine]
  · rcases e with b | d | _ | _ | t
    · rcases b with ⟨id?, name?⟩ | bt
      · simp [SSELine.isToolStart] at h2
      · simp [processLine]
    · rcases d with t | pj | t | c | t
      · by_cases ht : t = "" <;>
          simp [processLine, ht, Chunk.isToolCallInit, Chunk.isToolCallArgs,
            Chunk.isTerminal]
      · simp [processLine, hcu]
      · by_cases ht : t = "" <;>
          simp [processLine, ht, Chunk.isToolCallInit, Chunk.isToolCallArgs,
            Chunk.isTerminal]
      · rcases c with _ | c
        · simp [processLine]
        · simp [processLine, Chunk.isToolCallInit, Chunk.isToolCallArgs,
            Chunk.isTerminal]
      · simp [processLine]
    · simp [processLine, hcu]
    · simp [SSELine.isMessageStop] at h1
    · simp [processLine]

/-- Processing any line that is neither `message_stop` nor a `tool_use`
`content_block_start` preserves `has_tool_calls`, never breaks the loop,
yields no initial tool-call chunk and no terminal chunk, and any
argument chunk it yields carries, verbatim, the non-empty
`partial_json` of the very `input_json_delta` line being processed. -/
theorem processLine_step (s : StreamState) (l : SSELine)
    (h1 : l.isMessageStop = false) (h2 : l.isToolStart = false) :
    (processLine s l).state.hasToolCalls = s.hasToolCalls ∧
    (processLine s l).stop = false ∧
    ∀ c ∈ (processLine s l).out,
      c.isToolCallInit = false ∧ c.isTerminal = false ∧
      ∀ i a, c = Chunk.toolCallArgs i a →
        a ≠ "" ∧ l = SSELine.event (.contentBlockDelta (.inputJsonDelta a)) := by
  rcases l with _ | _ | e
  · simp [processLine]
  · simp [processLine]
  · rcases e with b | d | _ | _ | t
    · rcases b with ⟨id?, name?⟩ | bt
      · simp [SSELine.isToolStart] at h2
      · simp [processLine]
    · rcases d with t | pj | t | c | t
      · by_cases ht : t = "" <;>
          simp [processLine, ht, Chunk.isToolCallInit, Chunk.isTerminal]
      · rcases hcu : s.currentToolUse with _ | tu
        · simp [processLine, hcu]
        · by_cases hpj : pj = ""
          · simp [processLine, hcu, hpj]
          · refine ⟨by simp [processLine, hcu, hpj], by simp [processLine, hcu, hpj], ?_⟩
            intro c hc
            simp [processLine, hcu, hpj] at hc
            subst hc
            refine ⟨by simp [Chunk.isToolCallInit], by simp [Chunk.isTerminal], ?_⟩
            intro i a ha
            rcases Chunk.toolCallArgs.inj ha with ⟨hi, hargs⟩
            subst hargs
            exact ⟨hpj, rfl⟩
      · by_cases ht : t = "" <;>
          simp [processLine, ht, Chunk.isToolCallInit, Chunk.isTerminal]
      · rcases c with _ | c
        · simp [processLine]
        · simp [processLine, Chunk.isToolCallInit, Chunk.isTerminal]
      · simp [processLine]
    · rcases hcu : s.currentToolUse with _ | tu <;> simp [processLine, hcu]
    · simp [SSELine.isMessageStop] at h1
    · simp [processLine]

/-- A prefix of lines with no `message_stop` and no `tool_use` start,
processed from a state with no active tool accumulator, contributes only
plain content chunks before whatever the rest of the stream produces,
and leaves the state unchanged for the rest. -/
theorem runStream_quiet_prefix (pre : List SSELine) :
    ∀ s : StreamState, s.currentToolUse = none →
    (∀ l ∈ pre, l.isMessageStop = false ∧ l.isToolStart = false) →
    ∀ rest : List SSELine,
    ∃ A : List Chunk,
      runStream s (pre ++ rest) = A ++ runStream s rest ∧
      ∀ c ∈ A, c.isToolCallInit = false ∧ c.isToolCallArgs = false ∧ c.isTerminal = false := by
  induction pre with
  | nil => intro s hcu hp rest; exact ⟨[], by simp, by simp⟩
  | cons l pre ih =>
    intro s hcu hp rest
    obtain ⟨h1, h2⟩ := hp l (by simp)
    obtain ⟨hst, hstop, hout⟩ := processLine_quiet s l hcu h1 h2
    obtain ⟨A, hA, hAp⟩ := ih s hcu (fun x hx => hp x (by simp [hx])) rest
    refine ⟨(processLine s l).out ++ A, ?_, ?_⟩
    · rw [List.cons_append, runStream_cons, hstop, if_neg (by simp), hst, hA,
        List.append_assoc]
    · intro c hc
      rcases List.mem_append.mp hc with hc | hc
      exacts [hout c hc, hAp c hc]

/-- Once `has_tool_calls` is set, a remainder of the stream containing
no further `tool_use` start and reaching `message_stop` produces some
chunks — none of them an initial tool-call chunk or terminal, and every
argument chunk among them carrying verbatim the non-empty `partial_json`
of one of its `input_json_delta` lines — followed by the finish chunk
with reason `"tool_calls"` and the `[DONE]` sentinel. -/
theorem runStream_post (ls : List SSELine) :
    ∀ s : StreamState, s.hasToolCalls = true →
    (∀ l ∈ ls, l.isToolStart = false) →
    containsStop ls = true →
    ∃ B : List Chunk,
      runStream s ls = B ++ [Chunk.finish "tool_calls", Chunk.done] ∧
      ∀ c ∈ B, c.isToolCallInit = false ∧ c.isTerminal = false ∧
        ∀ i a, c = Chunk.toolCallArgs i a →
          a ≠ "" ∧ SSELine.event (.contentBlockDelta (.inputJsonDelta a)) ∈ ls := by
  induction ls with
  | nil => intro s _ _ h; simp [containsStop] at h
  | cons l ls ih =>
    intro s htc hts h
    by_cases hstop : l.isMessageStop = true
    · rcases isMessageStop_eq hstop with rfl
      refine ⟨[], ?_, by simp⟩
      simp [runStream_cons, processLine, htc]
    · have hstop' : l.isMessageStop = false := by
        revert hstop; cases l.isMessageStop <;> simp
      obtain ⟨hpres, hns, hout⟩ := processLine_step s l hstop' (hts l (by simp))
      have hcs : containsStop ls = true := by
        simpa [containsStop, hstop'] using h
      obtain ⟨B, hB, hBp⟩ := ih (processLine s l).state (by rw [hpres, htc])
        (fun x hx => hts x (by simp [hx])) hcs
      refine ⟨(processLine s l).out ++ B, ?_, ?_⟩
      · rw [runStream_cons, hns, if_neg (by simp), hB, List.append_assoc]
      · intro c hc
        rcases List.mem_append.mp hc with hc | hc
        · obtain ⟨hi, ht, hargs⟩ := hout c hc
          refine ⟨hi, ht, fun i a ha => ⟨(hargs i a ha).1, ?_⟩⟩
          rcases hargs i a ha with ⟨_, rfl⟩
          exact List.mem_cons_self _ _
        · obtain ⟨hi, ht, hargs⟩ := hBp c hc
          exact ⟨hi, ht, fun i a ha =>
            ⟨(hargs i a ha).1, List.mem_cons_of_mem _ (hargs i a ha).2⟩⟩

/-- C3: a stream whose processed part contains exactly one `tool_use`
content block (carrying an `id` and a `name`) and reaches
`message_stop` yields: possibly some plain content chunks, then exactly
one initial tool-call chunk carrying that block's id and name with
empty `arguments`, then chunks among which every argument chunk carries
verbatim the non-empty `partial_json` of one of the stream's
`input_json_delta` events, then the finish chunk with
`finish_reason = "tool_calls"`, then the `[DONE]` sentinel. -/
theorem single_tool_use_chunk_shape (pre post : List SSELine) (bid bname : String)
    (hpre : ∀ l ∈ pre, l.isMessageStop = false ∧ l.isToolStart = false)
    (hpost : ∀ l ∈ post, l.isToolStart = false)
    (hstop : containsStop post = true) :
    ∃ A B : List Chunk,
      runStream initState
          (pre ++ SSELine.event (.contentBlockStart (.toolUse (some bid) (some bname))) :: post) =
        A ++ Chunk.toolCallInit 0 bid bname "" ::
          (B ++ [Chunk.finish "tool_calls", Chunk.done]) ∧
      (∀ c ∈ A, c.isToolCallInit = false ∧ c.isToolCallArgs = false ∧ c.isTerminal = false) ∧
      (∀ c ∈ B, c.isToolCallInit = false ∧ c.isTerminal = false) ∧
      (∀ c ∈ B, ∀ i a, c = Chunk.toolCallArgs i a →
        a ≠ "" ∧ SSELine.event (.contentBlockDelta (.inputJsonDelta a)) ∈ post) := by
  obtain ⟨A, hA, hAp⟩ := runStream_quiet_prefix pre initState rfl hpre
    (SSELine.event (.contentBlockStart (.toolUse (some bid) (some bname))) :: post)
  have hstep :
      processLine initState
        (SSELine.event (.contentBlockStart (.toolUse (some bid) (some bname)))) =
      ⟨⟨some ⟨bid, bname, 0⟩, "", 0, true⟩,
        [Chunk.toolCallInit 0 bid bname ""], false⟩ := rfl
  obtain ⟨B, hB, hBp⟩ := runStream_post post ⟨some ⟨bid, bname, 0⟩, "", 0, true⟩
    rfl hpost hstop
  refine ⟨A, B, ?_, hAp, fun c hc => ⟨(hBp c hc).1, (hBp c hc).2.1⟩,
    fun c hc => (hBp c hc).2.2⟩
  rw [hA, runStream_cons, hstep]
  simp [hB]

theorem single_tool_use_chunk_shape_witness :
    (∀ l ∈ [SSELine.event (.contentBlockDelta (.textDelta "Let me check."))],
      l.isMessageStop = false ∧ l.isToolStart = false) ∧
    (∀ l ∈ [SSELine.event (.contentBlockDelta (.inputJsonDelta "\"city\": \"SF\"")),
        SSELine.event .contentBlockStop, SSELine.event .messageStop],
      l.isToolStart = false) ∧
    containsStop [SSELine.event (.contentBlockDelta (.inputJsonDelta "\"city\": \"SF\"")),
      SSELine.event .contentBlockStop, SSELine.event .messageStop] = true ∧
    (∃ A B : List Chunk,
      runStream initState
          ([SSELine.event (.contentBlockDelta (.textDelta "Let me check."))] ++
            SSELine.event (.contentBlockStart (.toolUse (some "toolu_1") (some "get_weather"))) ::
            [SSELine.event (.contentBlockDelta (.inputJsonDelta "\"city\": \"SF\"")),
              SSELine.event .contentBlockStop, SSELine.event .messageStop]) =
        A ++ Chunk.toolCallInit 0 "toolu_1" "get_weather" "" ::
          (B ++ [Chunk.finish "tool_calls", Chunk.done]) ∧
      (∀ c ∈ A, c.isToolCallInit = false ∧ c.isToolCallArgs = false ∧ c.isTerminal = false) ∧
      (∀ c ∈ B, c.isToolCallInit = false ∧ c.isTerminal = false) ∧
      (∀ c ∈ B, ∀ i a, c = Chunk.toolCallArgs i a →
        a ≠ "" ∧ SSELine.event (.contentBlockDelta (.inputJsonDelta a)) ∈
          [SSELine.event (.contentBlockDelta (.inputJsonDelta "\"city\": \"SF\"")),
            SSELine.event .contentBlockStop, SSELine.event .messageStop])) :=
  ⟨by decide, by decide, by decide,
    single_tool_use_chunk_shape _ _ "toolu_1" "get_weather"
      (by decide) (by decide) (by decide)⟩

theorem done_sentinel_unique_and_final_witness :
    containsStop [SSELine.event (.contentBlockDelta (.textDelta "hello")),
        SSELine.event .messageStop] = true ∧
    ((runStream initState [SSELine.event (.contentBlockDelta (.textDelta "hello")),
        SSELine.event .messageStop]).count Chunk.done = 1 ∧
      (runStream initState [SSELine.event (.contentBlockDelta (.textDelta "hello")),
        SSELine.event .messageStop]).getLast? = some Chunk.done) :=
  ⟨by decide, done_sentinel_unique_and_final _ (by decide)⟩

theorem string_append_assoc (a b c : String) : a ++ b ++ c = a ++ (b ++ c) := by
  apply String.ext
  simp

/-- C8: a `data: `-prefixed line whose payload is not valid JSON is
skipped: it yields no chunk, leaves the translator state untouched, and
the stream continues with the remaining lines exactly as if the
malformed line were absent (the exception handler logs and
`continue`s; the log call is outside this pure model). -/
theorem malformed_line_skipped (ls1 ls2 : List SSELine) (raw : String)
    (s : StreamState) :
    processLine s (SSELine.malformed raw) = ⟨s, [], false⟩ ∧
    runStream s (ls1 ++ SSELine.malformed raw :: ls2) = runStream s (ls1 ++ ls2) := by
  refine ⟨rfl, ?_⟩
  induction ls1 generalizing s with
  | nil => simp [runStream_cons, processLine]
  | cons l ls ih =>
    simp only [List.cons_append, runStream_cons]
    by_cases hstop : (processLine s l).stop = true <;> simp [hstop, ih]

/-- C9: a `content_block_delta` of kind `citations_delta` whose
citation object is non-empty and carries `document_index = idx` and
`document_title = title` yields exactly one content chunk; its text is
the bracketed citation marker — `[idx: title]` when the title is
non-empty, else `[idx]` — appended after a single separating space.
The translator state is unchanged and the stream continues. -/
theorem citations_delta_marker (s : StreamState) (c : Citation)
    (idx : Nat) (title : String)
    (hidx : c.documentIndex = some idx) (htitle : c.documentTitle = some title) :
    processLine s (SSELine.event (.contentBlockDelta (.citationsDelta (some c)))) =
      ⟨s, [Chunk.content
        (if title ≠ "" then " [" ++ toString idx ++ ": " ++ title ++ "]"
         else " [" ++ toString idx ++ "]")], false⟩ ∧
    (if title ≠ "" then " [" ++ toString idx ++ ": " ++ title ++ "]"
     else " [" ++ toString idx ++ "]") =
      " " ++ (if title ≠ "" then "[" ++ toString idx ++ ": " ++ title ++ "]"
              else "[" ++ toString idx ++ "]") := by
  constructor
  · simp [processLine, hidx, htitle]
  · by_cases ht : title = "" <;>
      simp [ht, ← string_append_assoc]

theorem citations_delta_marker_witness :
    ((Citation.mk (some 2) (some "Annual Report")).documentIndex = some 2 ∧
      (Citation.mk (some 2) (some "Annual Report")).documentTitle = some "Annual Report" ∧
      (processLine initState
          (SSELine.event (.contentBlockDelta
            (.citationsDelta (some (Citation.mk (some 2) (some "Annual Report")))))) =
        ⟨initState, [Chunk.content
          (if "Annual Report" ≠ "" then " [" ++ toString 2 ++ ": " ++ "Annual Report" ++ "]"
           else " [" ++ toString 2 ++ "]")], false⟩ ∧
        (if "Annual Report" ≠ "" then " [" ++ toString 2 ++ ": " ++ "Annual Report" ++ "]"
         else " [" ++ toString 2 ++ "]") =
          " " ++ (if "Annual Report" ≠ "" then "[" ++ toString 2 ++ ": " ++ "Annual Report" ++ "]"
                  else "[" ++ toString 2 ++ "]"))) ∧
    ((Citation.mk (some 0) (some "")).documentIndex = some 0 ∧
      (Citation.mk (some 0) (some "")).documentTitle = some "" ∧
      (processLine initState
          (SSELine.event (.contentBlockDelta
            (.citationsDelta (some (Citation.mk (some 0) (some "")))))) =
        ⟨initState, [Chunk.content
          (if "" ≠ "" then " [" ++ toString 0 ++ ": " ++ "" ++ "]"
           else " [" ++ toString 0 ++ "]")], false⟩ ∧
        (if "" ≠ "" then " [" ++ toString 0 ++ ": " ++ "" ++ "]"
         else " [" ++ toString 0 ++ "]") =
          " " ++ (if "" ≠ "" then "[" ++ toString 0 ++ ": " ++ "" ++ "]"
                  else "[" ++ toString 0 ++ "]"))) :=
  ⟨⟨rfl, rfl, citations_delta_marker initState _ 2 "Annual Report" rfl rfl⟩,
   ⟨rfl, rfl, citations_delta_marker initState _ 0 "" rfl rfl⟩⟩

/-- C10: an `input_json_delta` arriving while no tool_use accumulator
is active, or carrying an empty `partial_json`, is silently dropped:
no chunk is emitted, the state (including the `tool_use_input_json`
buffer) is completely unchanged, and the loop continues. -/
theorem idle_input_json_delta_dropped (s : StreamState) (pj : String)
    (h : s.currentToolUse = none ∨ pj = "") :
    processLine s (SSELine.event (.contentBlockDelta (.inputJsonDelta pj))) =
      ⟨s, [], false⟩ := by
  rcases h with h | h
  · simp [processLine, h]
  · rcases hcu : s.currentToolUse with _ | tu <;> simp [processLine, hcu, h]

theorem idle_input_json_delta_dropped_witness :
    ((initState.currentToolUse = none ∨ ("\"unit\": \"c\"" : String) = "") ∧
      processLine initState
        (SSELine.event (.contentBlockDelta (.inputJsonDelta "\"unit\": \"c\""))) =
        ⟨initState, [], false⟩) ∧
    ((StreamState.mk (some ⟨"toolu_1", "get_weather", 0⟩) "" 0 true).currentToolUse = none ∨
        ("" : String) = "") ∧
      processLine (StreamState.mk (some ⟨"toolu_1", "get_weather", 0⟩) "" 0 true)
        (SSELine.event (.contentBlockDelta (.inputJsonDelta ""))) =
        ⟨StreamState.mk (some ⟨"toolu_1", "get_weather", 0⟩) "" 0 true, [], false⟩ :=
  ⟨⟨Or.inl rfl, idle_input_json_delta_dropped initState _ (Or.inl rfl)⟩,
   ⟨Or.inr rfl, idle_input_json_delta_dropped _ "" (Or.inr rfl)⟩⟩

/-! ## The retry wrapper `_send_request` (lines 852-903)

The wrapper loops `while retry_count < max_retries` around one upstream
POST.  Each iteration performs one HTTP attempt; we model the attempt's
outcome abstractly: either an HTTP response (status, the integer value
of its `retry-after` header when present, body text) or an
`aiohttp.ClientError`.  Since `retry_count` is incremented exactly once
per iteration and only on a 429 response, the iteration with
`retry_count = k` performs attempt number `k`, so outcomes are indexed
by `retry_count`. -/

/-- The outcome of one upstream POST attempt. -/
inductive AttemptOutcome where
  | response (status : Nat) (retryAfter : Option Nat) (text : String)
  | clientError (msg : String)
  deriving DecidableEq, Repr

/-- The `SimpleNamespace` response wrapper `_send_request` returns
(fields `status_code` and `text`; `headers` and the `json` thunk are
not claim-relevant). -/
structure ResponseWrapper where
  status_code : Nat
  text : String
  deriving DecidableEq, Repr

/-- How `_send_request` ends: returning a wrapper, or re-raising a
transport error (`except aiohttp.ClientError as e: ... raise e`). -/
inductive SendOutcome where
  | returned (r : ResponseWrapper)
  | raised (msg : String)
  deriving DecidableEq, Repr

/-- The observable behaviour of one `_send_request` call: its final
outcome, the number of HTTP attempts it made, and the list of
`asyncio.sleep` durations it performed, in order. -/
structure SendTrace where
  outcome : SendOutcome
  attempts : Nat
  sleeps : List Nat
  deriving DecidableEq, Repr

/-- `max_retries = 3` (line 857). -/
def maxRetries : Nat := 3

/-- `base_delay = 1` (line 856). -/
def baseDelay : Nat := 1

/-- The `while retry_count < max_retries` loop of `_send_request`,
starting from a given `retry_count`.  On a 429 it sleeps for
`int(response.headers.get("retry-after", base_delay * (2 ** retry_count)))`
seconds, increments `retry_count` and continues; on any other response
it returns the wrapper; on a transport error it re-raises.  When the
guard fails, it returns the synthetic
`SimpleNamespace(status_code=429, text="Max retries exceeded")`. -/
def sendRequestFrom (outcomes : Nat → AttemptOutcome) (retryCount : Nat) : SendTrace :=
  if _h : retryCount < maxRetries then
    match outcomes retryCount with
    | .response status retryAfter text =>
      if status = 429 then
        let retryAfterSecs := retryAfter.getD (baseDelay * 2 ^ retryCount)
        let rest := sendRequestFrom outcomes (retryCount + 1)
        ⟨rest.outcome, rest.attempts + 1, retryAfterSecs :: rest.sleeps⟩
      else ⟨.returned ⟨status, text⟩, 1, []⟩
    | .clientError msg => ⟨.raised msg, 1, []⟩
  else ⟨.returned ⟨429, "Max retries exceeded"⟩, 0, []⟩
termination_by maxRetries - retryCount
decreasing_by omega

/-- `_send_request` itself: the loop entered with `retry_count = 0`. -/
def sendRequest (outcomes : Nat → AttemptOutcome) : SendTrace :=
  sendRequestFrom outcomes 0

theorem sendRequestFrom_attempts (n : Nat) :
    ∀ retryCount, maxRetries - retryCount ≤ n →
    ∀ outcomes, (sendRequestFrom outcomes retryCount).attempts ≤ maxRetries - retryCount := by
  induction n with
  | zero =>
    intro r hr o
    rw [sendRequestFrom]
    have : ¬r < maxRetries := by omega
    simp [this]
  | succ n ih =>
    intro r hr o
    rw [sendRequestFrom]
    by_cases h : r < maxRetries
    · rcases ho : o r with ⟨status, ra, text⟩ | msg
      · by_cases h429 : status = 429
        · have := ih (r + 1) (by omega) o
          simp only [h, dif_pos, ho, h429, if_pos]
          omega
        · simp [h, ho, h429]; omega
      · simp [h, ho]; omega
    · simp [h]

/-- C4: the retry wrapper makes at most 3 attempts; a transport error
on the first attempt propagates immediately after exactly one attempt
with no sleep; a non-429 response on the first attempt is returned
immediately after exactly one attempt with no sleep; and three
consecutive 429 responses yield the synthetic
`status_code = 429` / `"Max retries exceeded"` wrapper after exactly 3
attempts, having slept once per 429 — for the `retry-after` header
value when present, else `base_delay * 2 ^ attempt` seconds. -/
theorem send_request_retry_behaviour :
    (∀ outcomes, (sendRequest outcomes).attempts ≤ 3) ∧
    (∀ outcomes msg, outcomes 0 = .clientError msg →
      sendRequest outcomes = ⟨.raised msg, 1, []⟩) ∧
    (∀ outcomes status ra text, outcomes 0 = .response status ra text →
      status ≠ 429 →
      sendRequest outcomes = ⟨.returned ⟨status, text⟩, 1, []⟩) ∧
    (∀ (outcomes : Nat → AttemptOutcome) (ra : Nat → Option Nat) (texts : Nat → String),
      (∀ k, k < 3 → outcomes k = .response 429 (ra k) (texts k)) →
      sendRequest outcomes =
        ⟨.returned ⟨429, "Max retries exceeded"⟩, 3,
          [(ra 0).getD (baseDelay * 2 ^ 0), (ra 1).getD (baseDelay * 2 ^ 1),
           (ra 2).getD (baseDelay * 2 ^ 2)]⟩) ∧
    (∀ outcomes ra0 text0 status ra1 text1,
      outcomes 0 = .response 429 ra0 text0 →
      outcomes 1 = .response status ra1 text1 → status ≠ 429 →
      sendRequest outcomes =
        ⟨.returned ⟨status, text1⟩, 2, [ra0.getD (baseDelay * 2 ^ 0)]⟩) := by
  refine ⟨?_, ?_, ?_, ?_, ?_⟩
  · intro o
    have := sendRequestFrom_attempts maxRetries 0 (by omega) o
    simpa [sendRequest, maxRetries] using this
  · intro o msg h
    rw [sendRequest, sendRequestFrom]
    simp [maxRetries, h]
  · intro o status ra text h h429
    rw [sendRequest, sendRequestFrom]
    simp [maxRetries, h, h429]
  · intro o ra texts h
    have h0 := h 0 (by omega)
    have h1 := h 1 (by omega)
    have h2 := h 2 (by omega)
    rw [sendRequest, sendRequestFrom]
    simp only [maxRetries, Nat.zero_lt_succ, dif_pos, h0, if_pos rfl]
    rw [sendRequestFrom]
    simp only [maxRetries, h1]
    rw [sendRequestFrom]
    simp only [maxRetries, h2]
    rw [sendRequestFrom]
    simp [maxRetries, baseDelay]
  · intro o ra0 text0 status ra1 text1 h0 h1 hs
    rw [sendRequest, sendRequestFrom]
    simp only [maxRetries, Nat.zero_lt_succ, dif_pos, h0, if_pos rfl]
    rw [sendRequestFrom]
    simp [maxRetries, h1, hs]

theorem send_request_retry_behaviour_witness :
    ((fun k => AttemptOutcome.response 429
        (if k = 0 then some 2 else none) "rate limited") 0 =
      AttemptOutcome.response 429 (some 2) "rate limited" ∧
    sendRequest (fun k => AttemptOutcome.response 429
        (if k = 0 then some 2 else none) "rate limited") =
      ⟨.returned ⟨429, "Max retries exceeded"⟩, 3, [2, 2, 4]⟩) ∧
    ((fun _ => AttemptOutcome.clientError "boom") 0 =
        AttemptOutcome.clientError "boom" ∧
      sendRequest (fun _ => AttemptOutcome.clientError "boom") =
        ⟨.raised "boom", 1, []⟩) ∧
    ((fun k => if k = 0 then AttemptOutcome.response 429 (some 2) "rate limited"
        else AttemptOutcome.response 200 none "ok") 0 =
        AttemptOutcome.response 429 (some 2) "rate limited" ∧
      (fun k => if k = 0 then AttemptOutcome.response 429 (some 2) "rate limited"
        else AttemptOutcome.response 200 none "ok") 1 =
        AttemptOutcome.response 200 none "ok" ∧
      (200 : Nat) ≠ 429 ∧
      sendRequest (fun k => if k = 0 then AttemptOutcome.response 429 (some 2) "rate limited"
          else AttemptOutcome.response 200 none "ok") =
        ⟨.returned ⟨200, "ok"⟩, 2, [2]⟩) := by
  refine ⟨?_, ?_, ?_⟩
  · refine ⟨rfl, ?_⟩
    have := (send_request_retry_behaviour.2.2.2.1)
      (fun k => AttemptOutcome.response 429
        (if k = 0 then some 2 else none) "rate limited")
      (fun k => if k = 0 then some 2 else none)
      (fun _ => "rate limited")
      (fun k _ => rfl)
    simpa using this
  · exact ⟨rfl, send_request_retry_behaviour.2.1
      (fun _ => AttemptOutcome.clientError "boom") "boom" rfl⟩
  · refine ⟨rfl, rfl, by decide, ?_⟩
    have := (send_request_retry_behaviour.2.2.2.2)
      (fun k => if k = 0 then AttemptOutcome.response 429 (some 2) "rate limited"
        else AttemptOutcome.response 200 none "ok")
      (some 2) "rate limited" 200 none "ok" rfl rfl (by decide)
    simpa using this

/-! ## Python string primitives

The request builder and the image validator use a handful of Python
`str` operations (`split`, `replace`, `startswith`, the `in` substring
test).  They are embedded here on `List Char` with Python's semantics:
`split(sep)` keeps empty fields, `replace(old, new)` replaces all
non-overlapping occurrences left to right, `in` is the substring
test. -/

/-- `s.startswith(pre)`. -/
def pyStartsWith (s pre : List Char) : Bool :=
  match pre, s with
  | [], _ => true
  | _ :: _, [] => false
  | p :: ps, c :: cs => p == c && pyStartsWith cs ps

/-- `needle in haystack` (substring containment). -/
def pyContains (haystack needle : List Char) : Bool :=
  match haystack with
  | [] => needle.isEmpty
  | _ :: rest => pyStartsWith haystack needle || pyContains rest needle

/-- `s.split(sep)` for a one-character separator: splits at every
occurrence, keeping empty fields, so the result is always non-empty. -/
def pySplit (s : List Char) (sep : Char) : List (List Char) :=
  match s with
  | [] => [[]]
  | c :: rest =>
    if c == sep then [] :: pySplit rest sep
    else
      match pySplit rest sep with
      | [] => [[c]]
      | h :: t => (c :: h) :: t

/-- `s.split(sep, 1)` for a one-character separator: a list of one
element (no separator present) or two (head before the first separator,
tail after it). -/
def pySplitFirst (s : List Char) (sep : Char) : List (List Char) :=
  match s with
  | [] => [[]]
  | c :: rest =>
    if c == sep then [[], rest]
    else
      match pySplitFirst rest sep with
      | [] => [[c]]
      | h :: t => (c :: h) :: t

/-- `s.replace(pat, rep)`, fuel-indexed so that it reduces by structural
recursion; each step consumes at least one character of `s`, so fuel
`s.length` (see `pyReplace`) is always enough. -/
def pyReplaceFuel : Nat → List Char → List Char → List Char → List Char
  | 0, s, _, _ => s
  | _ + 1, [], _, _ => []
  | fuel + 1, c :: rest, pat, rep =>
    if pat ≠ [] ∧ pyStartsWith (c :: rest) pat then
      rep ++ pyReplaceFuel fuel ((c :: rest).drop pat.length) pat rep
    else c :: pyReplaceFuel fuel rest pat rep

/-- `s.replace(pat, rep)` (all non-overlapping occurrences, left to
right; the source only calls it with the non-empty pattern
`"-thinking"`). -/
def pyReplace (s pat rep : List Char) : List Char :=
  pyReplaceFuel s.length s pat rep

theorem pyStartsWith_self_append (a b : List Char) :
    pyStartsWith (a ++ b) a = true := by
  induction a with
  | nil => simp [pyStartsWith]
  | cons c cs ih => simp [pyStartsWith, ih]

/-! ## Model-name resolution and thinking mode (`pipe`, lines 337-341
and 403-407) -/

/-- Lines 337-341 of `pipe`:
`model_name = body["model"].split("/")[-1]`,
`is_thinking_mode = "-thinking" in body["model"]`, and if thinking mode
`model_name = model_name.replace("-thinking", "")`.  Returns the
resolved vendor model name and the thinking flag. -/
def resolveModel (model : String) : String × Bool :=
  let modelName := String.mk ((pySplit model.data '/').getLastD [])
  let isThinkingMode := pyContains model.data "-thinking".data
  let modelName :=
    if isThinkingMode then String.mk (pyReplace modelName.data "-thinking".data "".data)
    else modelName
  (modelName, isThinkingMode)

/-- The payload's `thinking` field object (lines 403-407):
`{"type": "enabled", "budget_tokens": self.valves.THINKING_BUDGET_TOKENS}`. -/
structure ThinkingConfig where
  type : String
  budget_tokens : Nat
  deriving DecidableEq, Repr

/-- Lines 403-407: the `thinking` field is added to the payload exactly
when thinking mode was detected, with the configured budget. -/
def thinkingPayload (isThinkingMode : Bool) (budgetTokens : Nat) : Option ThinkingConfig :=
  if isThinkingMode then some ⟨"enabled", budgetTokens⟩ else none

/-- C5: the request body model `"api/claude-3-5-sonnet-latest-thinking"`
resolves to vendor model `"claude-3-5-sonnet-latest"` (split on `/`,
`-thinking` suffix stripped), thinking mode is detected, and the
payload's `thinking` field is
`{"type": "enabled", "budget_tokens": <configured value>}`. -/
theorem thinking_model_resolution (budgetTokens : Nat) :
    (resolveModel "api/claude-3-5-sonnet-latest-thinking").1 =
      "claude-3-5-sonnet-latest" ∧
    (resolveModel "api/claude-3-5-sonnet-latest-thinking").2 = true ∧
    thinkingPayload (resolveModel "api/claude-3-5-sonnet-latest-thinking").2
        budgetTokens = some ⟨"enabled", budgetTokens⟩ := by
  refine ⟨by decide, by decide, ?_⟩
  have h2 : (resolveModel "api/claude-3-5-sonnet-latest-thinking").2 = true := by decide
  rw [h2, thinkingPayload, if_pos rfl]

/-! ## `max_tokens` clamping (`pipe`, lines 343-350) -/

/-- The static per-model output-token ceiling table
`MODEL_MAX_TOKENS` (lines 52-68). -/
def MODEL_MAX_TOKENS : List (String × Nat) :=
  [("claude-opus-4-5-20250514", 32000),
   ("claude-4-5-opus-20250514", 32000),
   ("claude-opus-4-20250514", 32000),
   ("claude-opus-4-0", 32000),
   ("claude-sonnet-4-20250514", 64000),
   ("claude-sonnet-4-0", 64000),
   ("claude-3-7-sonnet-20250219", 128000),
   ("claude-3-7-sonnet-latest", 128000),
   ("claude-3-5-sonnet-20241022", 8192),
   ("claude-3-5-sonnet-20240620", 8192),
   ("claude-3-5-sonnet-latest", 8192)]

/-- `max_tokens_limit = self.MODEL_MAX_TOKENS.get(model_name, 4096)`
(line 343). -/
def maxTokensLimit (modelName : String) : Nat :=
  (MODEL_MAX_TOKENS.lookup modelName).getD 4096

/-- The payload's `max_tokens` value (lines 348-350):
`min(body.get("max_tokens", max_tokens_limit), max_tokens_limit)`. -/
def payloadMaxTokens (requested : Option Nat) (modelName : String) : Nat :=
  min ((requested).getD (maxTokensLimit modelName)) (maxTokensLimit modelName)

/-- C6: for a model present in the `MODEL_MAX_TOKENS` table, the
payload's `max_tokens` equals the minimum of the requested value and
the table's ceiling; in particular a request above the ceiling is
silently truncated to the ceiling (the builder is total — it never
rejects such a request). -/
theorem max_tokens_clamped (modelName : String) (req ceiling : Nat)
    (h : MODEL_MAX_TOKENS.lookup modelName = some ceiling) :
    payloadMaxTokens (some req) modelName = min req ceiling ∧
    (ceiling < req → payloadMaxTokens (some req) modelName = ceiling) := by
  have hl : maxTokensLimit modelName = ceiling := by simp [maxTokensLimit, h]
  refine ⟨by simp [payloadMaxTokens, hl], fun hlt => ?_⟩
  simp [payloadMaxTokens, hl]
  omega

theorem max_tokens_clamped_witness :
    MODEL_MAX_TOKENS.lookup "claude-3-5-sonnet-latest" = some 8192 ∧
    (payloadMaxTokens (some 100000) "claude-3-5-sonnet-latest" = min 100000 8192 ∧
      (8192 < 100000 →
        payloadMaxTokens (some 100000) "claude-3-5-sonnet-latest" = 8192)) :=
  ⟨by decide, max_tokens_clamped "claude-3-5-sonnet-latest" 100000 8192 (by decide)⟩

/-! ## Image validation (`validate_total_image_size`, lines 300-324)

`pipe` calls `self.validate_total_image_size(messages)` (line 334)
before building the payload and before any network request; a raised
`ValueError` is caught by `pipe`'s outer handler and returned as an
error string, so a rejected message list never reaches the upstream
API.  Errors are modelled as structured `ValidationError` values
recording the quantity each message cites (the raised message
interpolates `total_size` resp. `image_count`). -/

/-- `self.TOTAL_MAX_IMAGE_SIZE = 100 * 1024 * 1024` (line 49). -/
def TOTAL_MAX_IMAGE_SIZE : Nat := 100 * 1024 * 1024

/-- `self.MAX_IMAGE_SIZE = 5 * 1024 * 1024` (line 47): the
single-image ceiling, enforced elsewhere, not by
`validate_total_image_size`. -/
def MAX_IMAGE_SIZE : Nat := 5 * 1024 * 1024

/-- `self.MAX_IMAGES_PER_REQUEST = 100` (line 50). -/
def MAX_IMAGES_PER_REQUEST : Nat := 100

/-- The `image_url` object of an `image_url` content item. -/
structure ImageUrl where
  url : String
  deriving DecidableEq, Repr

/-- One element of a list-valued message `content`: the validator only
distinguishes items whose `type` is `"image_url"`. -/
inductive ContentItem where
  | imageUrl (image_url : ImageUrl)
  | other (itemType : String)
  deriving DecidableEq, Repr

/-- A message's `content`: a plain string or a list of content items
(the validator only walks list-valued contents,
`isinstance(message.get("content"), list)`). -/
inductive MessageContent where
  | str (text : String)
  | items (l : List ContentItem)
  deriving DecidableEq, Repr

/-- A chat message as the validator sees it. -/
structure Message where
  content : MessageContent
  deriving DecidableEq, Repr

/-- A `ValueError` raised by `validate_total_image_size`, recording the
quantity the raised message interpolates:
* `totalSizeExceeded`: `f"Total image size exceeds ...: {total}MB"`
  (lines 317-319);
* `tooManyImages`: `f"Too many images: {count}. Maximum is ..."`
  (lines 322-324);
* `unpackError`: the `ValueError` Python itself raises at line 311 when
  a `data:image` URL contains no comma, so
  `_, base64_data = ...split(",", 1)` cannot unpack. -/
inductive ValidationError where
  | totalSizeExceeded (totalSize : ℚ)
  | tooManyImages (count : Nat)
  | unpackError
  deriving DecidableEq, Repr

/-- The inner loop of `validate_total_image_size` over one message's
content items: collects, in order, the base64-payload length of every
item of type `image_url` whose URL starts with `"data:image"`
(`base64_data` is the part after the first comma, line 311). -/
def collectItemImages : List ContentItem → Except ValidationError (List Nat)
  | [] => .ok []
  | item :: rest =>
    match item with
    | .imageUrl u =>
      if pyStartsWith u.url.data "data:image".data then
        match pySplitFirst u.url.data ',' with
        | [_, base64Data] =>
          match collectItemImages rest with
          | .ok r => .ok (base64Data.length :: r)
          | .error e => .error e
        | _ => .error .unpackError
      else collectItemImages rest
    | .other _ => collectItemImages rest

/-- The outer loop of `validate_total_image_size` over the messages
(lines 305-314): base64-payload lengths of all data-URI images, in
order. -/
def collectImages : List Message → Except ValidationError (List Nat)
  | [] => .ok []
  | m :: rest =>
    match m.content with
    | .str _ => collectImages rest
    | .items l =>
      match collectItemImages l with
      | .error e => .error e
      | .ok a =>
        match collectImages rest with
        | .error e => .error e
        | .ok b => .ok (a ++ b)

/-- `total_size`: the sum of `len(base64_data) * 3 / 4` over all
data-URI images (line 312; Python float division — exact here, as every
term is a dyadic rational, so ℚ models it faithfully). -/
def totalImageSize (lens : List Nat) : ℚ :=
  (List.map (fun l : Nat => (l : ℚ) * 3 / 4) lens).sum

/-- `validate_total_image_size` (lines 300-324): walk the messages
accumulating `total_size` and `image_count`, then raise if the total
exceeds `TOTAL_MAX_IMAGE_SIZE`, else if the count exceeds
`MAX_IMAGES_PER_REQUEST`; otherwise return normally. -/
def validateTotalImageSize (messages : List Message) : Except ValidationError Unit :=
  match collectImages messages with
  | .error e => .error e
  | .ok lens =>
    if totalImageSize lens > (TOTAL_MAX_IMAGE_SIZE : ℚ) then
      .error (.totalSizeExceeded (totalImageSize lens))
    else if lens.length > MAX_IMAGES_PER_REQUEST then
      .error (.tooManyImages lens.length)
    else .ok ()

/-- C7: validation of a message list whose data-URI images decode to
more than the 100MB aggregate ceiling fails with an error citing the
computed total, even when each individual image is within the 5MB
single-image limit; and a message list with more than 100 data-URI
images (whose total is within the aggregate ceiling) fails with an
error citing the count.  Either failure happens inside
`validate_total_image_size`, which `pipe` runs before building the
payload or sending any request. -/
theorem image_validation_rejects (messages : List Message) (lens : List Nat)
    (hc : collectImages messages = .ok lens) :
    ((∀ l ∈ lens, (l : ℚ) * 3 / 4 ≤ (MAX_IMAGE_SIZE : ℚ)) →
      totalImageSize lens > (TOTAL_MAX_IMAGE_SIZE : ℚ) →
      validateTotalImageSize messages =
        .error (.totalSizeExceeded (totalImageSize lens))) ∧
    (totalImageSize lens ≤ (TOTAL_MAX_IMAGE_SIZE : ℚ) →
      lens.length > MAX_IMAGES_PER_REQUEST →
      validateTotalImageSize messages = .error (.tooManyImages lens.length)) ∧
    (lens.length > MAX_IMAGES_PER_REQUEST →
      ∃ e, validateTotalImageSize messages = .error e) := by
  refine ⟨?_, ?_, ?_⟩
  · intro _ htotal
    simp only [validateTotalImageSize, hc]
    rw [if_pos htotal]
  · intro htotal hcount
    simp only [validateTotalImageSize, hc]
    rw [if_neg (not_lt.mpr htotal), if_pos hcount]
  · intro hcount
    simp only [validateTotalImageSize, hc]
    by_cases htotal : totalImageSize lens > (TOTAL_MAX_IMAGE_SIZE : ℚ)
    · exact ⟨_, by rw [if_pos htotal]⟩
    · exact ⟨_, by rw [if_neg htotal, if_pos hcount]⟩

theorem pySplitFirst_append (xs ys : List Char) (h : ',' ∉ xs) :
    pySplitFirst (xs ++ ',' :: ys) ',' = [xs, ys] := by
  induction xs with
  | nil => simp [pySplitFirst]
  | cons c xs ih =>
    have hc : c ≠ ',' := fun heq => h (by simp [heq])
    have h2 : ',' ∉ xs := fun hm => h (List.mem_cons_of_mem _ hm)
    simp [pySplitFirst, hc, ih h2]

/-- A data-URI image item whose base64 payload is `tail`. -/
theorem collectItemImages_datauri (tail : List Char) (rest : List ContentItem) :
    collectItemImages
        (ContentItem.imageUrl
            ⟨String.mk (("data:image".data ++ "/png;base64".data) ++ (',' :: tail))⟩ ::
          rest) =
      match collectItemImages rest with
      | .ok r => .ok (tail.length :: r)
      | .error e => .error e := by
  have hpre : pyStartsWith
      (("data:image".data ++ "/png;base64".data) ++ (',' :: tail))
      "data:image".data = true := by
    rw [List.append_assoc]
    exact pyStartsWith_self_append _ _
  have hsplit : pySplitFirst
      (("data:image".data ++ "/png;base64".data) ++ (',' :: tail)) ',' =
      [("data:image".data ++ "/png;base64".data), tail] :=
    pySplitFirst_append _ _ (by decide)
  simp only [collectItemImages, hpre, if_true, hsplit]

theorem collectItemImages_datauri_replicate (tail : List Char) (n : Nat) :
    collectItemImages
        (List.replicate n (ContentItem.imageUrl
          ⟨String.mk (("data:image".data ++ "/png;base64".data) ++ (',' :: tail))⟩)) =
      .ok (List.replicate n tail.length) := by
  induction n with
  | zero => rfl
  | succ n ih =>
    rw [List.replicate_succ, collectItemImages_datauri, ih, List.replicate_succ]

theorem totalImageSize_replicate (n len : Nat) :
    totalImageSize (List.replicate n len) = n * ((len : ℚ) * 3 / 4) := by
  induction n with
  | zero => simp [totalImageSize]
  | succ n ih =>
    rw [List.replicate_succ]
    simp only [totalImageSize, List.map_cons, List.sum_cons] at ih ⊢
    rw [ih]
    push_cast
    ring

/-- Witness input: one message with 25 data-URI images, each of base64
length 5.6MB, i.e. decoded size 4.2MB (within the 5MB single-image
limit), 105MB decoded in aggregate (over the 100MB ceiling). -/
def bigImageMessages : List Message :=
  [⟨.items (List.replicate 25 (ContentItem.imageUrl
    ⟨String.mk (("data:image".data ++ "/png;base64".data) ++
      (',' :: List.replicate 5600000 'A'))⟩))⟩]

/-- Witness input: one message with 101 tiny data-URI images. -/
def manyImageMessages : List Message :=
  [⟨.items (List.replicate 101 (ContentItem.imageUrl
    ⟨String.mk (("data:image".data ++ "/png;base64".data) ++
      (',' :: "AAAA".data))⟩))⟩]

theorem collectImages_big :
    collectImages bigImageMessages = .ok (List.replicate 25 5600000) := by
  have h := collectItemImages_datauri_replicate (List.replicate 5600000 'A') 25
  rw [List.length_replicate] at h
  simp only [bigImageMessages, collectImages, h, List.append_nil]

theorem collectImages_many :
    collectImages manyImageMessages = .ok (List.replicate 101 4) := by
  have h := collectItemImages_datauri_replicate "AAAA".data 101
  have hl : ("AAAA".data).length = 4 := rfl
  rw [hl] at h
  simp only [manyImageMessages, collectImages, h, List.append_nil]

theorem image_validation_rejects_witness :
    (collectImages bigImageMessages = .ok (List.replicate 25 5600000) ∧
      (∀ l ∈ List.replicate 25 (5600000 : Nat),
        (l : ℚ) * 3 / 4 ≤ (MAX_IMAGE_SIZE : ℚ)) ∧
      totalImageSize (List.replicate 25 5600000) > (TOTAL_MAX_IMAGE_SIZE : ℚ) ∧
      validateTotalImageSize bigImageMessages =
        .error (.totalSizeExceeded (totalImageSize (List.replicate 25 5600000)))) ∧
    (collectImages manyImageMessages = .ok (List.replicate 101 4) ∧
      totalImageSize (List.replicate 101 4) ≤ (TOTAL_MAX_IMAGE_SIZE : ℚ) ∧
      (List.replicate 101 (4 : Nat)).length > MAX_IMAGES_PER_REQUEST ∧
      validateTotalImageSize manyImageMessages =
        .error (.tooManyImages (List.replicate 101 (4 : Nat)).length) ∧
      ∃ e, validateTotalImageSize manyImageMessages = .error e) := by
  have hsize : ∀ l ∈ List.replicate 25 (5600000 : Nat),
      (l : ℚ) * 3 / 4 ≤ (MAX_IMAGE_SIZE : ℚ) := by
    intro l hl
    rw [List.eq_of_mem_replicate hl]
    norm_num [MAX_IMAGE_SIZE]
  have htot : totalImageSize (List.replicate 25 5600000) >
      (TOTAL_MAX_IMAGE_SIZE : ℚ) := by
    rw [totalImageSize_replicate]
    norm_num [TOTAL_MAX_IMAGE_SIZE]
  have htot2 : totalImageSize (List.replicate 101 4) ≤
      (TOTAL_MAX_IMAGE_SIZE : ℚ) := by
    rw [totalImageSize_replicate]
    norm_num [TOTAL_MAX_IMAGE_SIZE]
  have hcount : (List.replicate 101 (4 : Nat)).length > MAX_IMAGES_PER_REQUEST := by
    simp [MAX_IMAGES_PER_REQUEST]
  exact ⟨⟨collectImages_big, hsize, htot,
      (image_validation_rejects bigImageMessages _ collectImages_big).1 hsize htot⟩,
    ⟨collectImages_many, htot2, hcount,
      (image_validation_rejects manyImageMessages _ collectImages_many).2.1 htot2 hcount,
      (image_validation_rejects manyImageMessages _ collectImages_many).2.2 hcount⟩⟩

end AnthropicPipe
